import Mathlib

/-!
# Verification of the qbot-server decision-and-pipeline engine

Shallow embedding of the Q-learning trading bot in `qbot.py`, the trade
worker and producers in `workers.py`, and the trade bookkeeping in
`database.py`.  Prices, equities and Q-values are modelled as exact
rationals (`ℚ`); Python's float arithmetic is treated as exact.  The
randomness consumed by `select_action` (`random()` and
`choice(list(OrderType))`) is passed in explicitly: a draw `r : ℚ` with
`0 ≤ r < 1` and a pick `c : Fin 2`.
-/

namespace QBot

/-- `database.py` lines 28-30: `class OrderType(str, Enum)` has exactly the
two members `BUY` and `SELL` (there is no `HOLD` member). -/
inductive OrderType
  | BUY
  | SELL
deriving DecidableEq, Repr

/-- `list(OrderType)`: the enum members in definition order. -/
def OrderType.enumList : List OrderType := [.BUY, .SELL]

/-- `database.py` lines 32-34: `class PositionStatus(str, Enum)`. -/
inductive PositionStatus
  | OPEN
  | CLOSED
deriving DecidableEq, Repr

/-- `qbot.py` lines 15-22: `QLearningConfig` with its documented defaults
(`price_bin_size` is in percentage points). -/
structure QLearningConfig where
  alpha : ℚ := 1/10
  gamma : ℚ := 95/100
  epsilon : ℚ := 1/10
  price_bin_size : ℚ := 1/4
  stop_loss_pct : ℚ := 1/100
  take_profit_pct : ℚ := 2/100
deriving DecidableEq, Repr

/-- `qbot.py` lines 24-30: an open position.  `str(uuid.uuid4())` is
modelled as a fresh natural-number id drawn from a per-worker counter. -/
structure Position where
  id : ℕ
  direction : ℤ
  entry_price : ℚ
  stop_loss : ℚ
  take_profit : ℚ
deriving DecidableEq, Repr

/-- The discretised state `(bin_index, clamped position sign)` returned by
`QLearningAgent._discretise_state`. -/
abbrev QState := ℤ × ℤ

/-- The inner dict `Dict[OrderType, float]` of the Q-table, as an
association list that records Python's dict insertion order. -/
abbrev ActionValues := List (OrderType × ℚ)

/-- The Q-table `Dict[Hashable, Dict[OrderType, float]]`, as an
association list keyed by discretised states. -/
abbrev QTable := List (QState × ActionValues)

/-- Dict lookup `self.q_table[state]` (as an `Option`). -/
def QTable.findRow (q : QTable) (s : QState) : Option ActionValues :=
  (q.find? (fun row => row.1 == s)).map Prod.snd

/-- `qbot.py` lines 59-61, `_ensure_state`: if the state is absent, insert
`{a: 0.0 for a in OrderType}` — one zero entry per enum member, in enum
definition order; Python dict insertion appends the new key at the end. -/
def QTable.ensure (q : QTable) (s : QState) : QTable :=
  if (QTable.findRow q s).isSome then q
  else q ++ [(s, OrderType.enumList.map (fun a => (a, (0 : ℚ))))]

/-- Dict write `self.q_table[state][action] = v`: assignment to an existing
key; Python preserves the dict's key order. -/
def setAction (l : ActionValues) (a : OrderType) (v : ℚ) : ActionValues :=
  l.map (fun p => if p.1 == a then (p.1, v) else p)

/-- Write one action value inside the row of state `s`. -/
def QTable.setVal (q : QTable) (s : QState) (a : OrderType) (v : ℚ) : QTable :=
  q.map (fun row => if row.1 == s then (row.1, setAction row.2 a v) else row)

/-- Dict read `self.q_table[state][action]` (0 is never used: the state is
always ensured before reading). -/
def QTable.getVal (q : QTable) (s : QState) (a : OrderType) : ℚ :=
  match QTable.findRow q s with
  | none => 0
  | some row => ((row.find? (fun p => p.1 == a)).map Prod.snd).getD 0

/-- `max(self.q_table[next_state].values())` — plain Python `max` over the
row's values (the row is never empty after `_ensure_state`). -/
def QTable.maxVal (q : QTable) (s : QState) : ℚ :=
  match QTable.findRow q s with
  | none => 0
  | some [] => 0
  | some (p :: rest) => rest.foldl (fun b x => max b x.2) p.2

/-- Python's `max(action_values, key=action_values.get)`: iterate the keys
in dict order and keep the first key whose value is maximal (`max` replaces
the current best only on a strictly greater key). -/
def pyMaxByValue (l : ActionValues) : Option OrderType :=
  match l with
  | [] => none
  | x :: xs => some (xs.foldl (fun b y => if b.2 < y.2 then y else b) x).1

/-- `choice(list(OrderType))`: a uniform pick among the two enum members,
indexed by the supplied random index. -/
def chooseAction : Fin 2 → OrderType
  | 0 => .BUY
  | 1 => .SELL

/-- `qbot.py` lines 40-43: the agent is its config plus its Q-table. -/
structure Agent where
  config : QLearningConfig
  q_table : QTable
deriving DecidableEq, Repr

/-- `qbot.py` lines 45-57, `_discretise_state`: percentage change (0 when a
price is ≤ 0), divided by `price_bin_size / 100`, floored to an integer
bin (`int(math.floor -)` is the floor for our exact rationals), paired
with the position sign clamped to `[-1, 1]`. -/
def discretiseState (cfg : QLearningConfig) (last_close current_close : ℚ)
    (position : ℤ) : QState :=
  let change_pct : ℚ :=
    if last_close ≤ 0 ∨ current_close ≤ 0 then 0
    else (current_close - last_close) / last_close
  let bin_size := cfg.price_bin_size / 100
  let bin_index : ℤ := if bin_size ≤ 0 then 0 else ⌊change_pct / bin_size⌋
  (bin_index, max (-1) (min 1 position))

/-- `_ensure_state` at the agent level. -/
def Agent.ensureState (ag : Agent) (s : QState) : Agent :=
  { ag with q_table := QTable.ensure ag.q_table s }

/-- `qbot.py` lines 63-69, `select_action`: ensure the state, then with
`random() < epsilon` return `choice(list(OrderType))`, else the greedy
action `max(action_values, key=action_values.get)`.  The `.getD` defaults
are unreachable: the state was just ensured, so its row exists and is
non-empty. -/
def Agent.selectAction (ag : Agent) (s : QState) (r : ℚ) (c : Fin 2) :
    Agent × OrderType :=
  let ag' := ag.ensureState s
  if r < ag'.config.epsilon then
    (ag', chooseAction c)
  else
    (ag', (pyMaxByValue ((QTable.findRow ag'.q_table s).getD [])).getD .BUY)

/-- `qbot.py` lines 71-90, `update`: ensure the state (and the next state,
when given), then the Bellman write
`Q[s][a] += alpha * (target - Q[s][a])`. -/
def Agent.update (ag : Agent) (s : QState) (a : OrderType) (reward : ℚ)
    (next : Option QState) : Agent :=
  let ag1 := ag.ensureState s
  let currentQ := QTable.getVal ag1.q_table s a
  match next with
  | none =>
      { ag1 with
        q_table := QTable.setVal ag1.q_table s a
          (currentQ + ag1.config.alpha * (reward - currentQ)) }
  | some s' =>
      let ag2 := ag1.ensureState s'
      let target := reward + ag2.config.gamma * QTable.maxVal ag2.q_table s'
      { ag2 with
        q_table := QTable.setVal ag2.q_table s a
          (currentQ + ag2.config.alpha * (target - currentQ)) }

/-- `qbot.py` lines 92-102, `_compute_reward`: the equity delta, doubled
when a position was closed this step. -/
def compute_reward (prev_equity new_equity : ℚ)
    (closed_position : Option Position) : ℚ :=
  let pnl := new_equity - prev_equity
  match closed_position with
  | some _ => pnl * 2
  | none => pnl

/-! ## JSON payloads

`json.loads` yields a Python value: dict, list, number, bool or `None`
(string payloads never occur in this pipeline and string field values are
not read by the worker, so `Jval.str` is carried only to represent fields
such as `"type": "chart"` that the worker ignores). -/

/-- A decoded JSON value. -/
inductive Jval
  | obj (fields : List (String × Jval))
  | arr (elems : List Jval)
  | str (s : String)
  | num (q : ℚ)
  | bool (b : Bool)
  | null
deriving Repr

/-- `candle.get(key)` on a JSON object. -/
def jlookup (fields : List (String × Jval)) (k : String) : Option Jval :=
  (fields.find? (fun p => p.1 == k)).map Prod.snd

def Jval.isNull : Jval → Bool
  | .null => true
  | _ => false

/-- `candle.get("exit") is not None`: any `"exit"` key whose value is not
JSON `null` makes the payload a sentinel. -/
def isExitPayload (fields : List (String × Jval)) : Bool :=
  match jlookup fields "exit" with
  | none => false
  | some w => !w.isNull

/-- Python `float(-)` applied to a decoded JSON value: numbers pass
through, bools become 0/1, and `None`, lists and dicts raise `TypeError`.
(Python also parses numeric strings; the worker's candles never carry a
string `close`, and a non-numeric string raises `ValueError`, so strings
are modelled as the error case.) -/
def pyFloat : Jval → Except String ℚ
  | .num q => .ok q
  | .bool b => .ok (if b then 1 else 0)
  | _ => .error "float() TypeError or ValueError"

/-- An element popped from the input channel: either a string that fails
`json.loads` (`JSONDecodeError`) or a decoded JSON value. -/
inductive Payload
  | notJson (raw : String)
  | json (v : Jval)

/-! ## Channels

A broker list is modelled with its head as the most recently pushed
element (`lpush` pushes to the head; `ltrim(q, 0, 99)` keeps indices
0-99, i.e. the 100 most recent entries, dropping the oldest). -/

def lpush {α : Type} (chan : List α) (m : α) : List α := m :: chan

def ltrim100 {α : Type} (chan : List α) : List α := chan.take 100

/-- The push discipline used throughout `run_qbot_worker` (`qbot.py`, e.g.
lines 296-297): every `lpush` is immediately followed by
`ltrim(queue, 0, 99)`. -/
def pushTrim {α : Type} (chan : List α) (m : α) : List α :=
  ltrim100 (lpush chan m)

/-- `workers.py` lines 22-24: `run_trade_worker` pushes the notification
with `lpush` alone — there is no `ltrim` in that worker. -/
def tradeWorkerPush {α : Type} (chan : List α) (m : α) : List α :=
  lpush chan m

/-- `workers.py` lines 62-64: `run_trade_history_producer` pushes each
normalized trade with `lpush` alone — no `ltrim`. -/
def tradeHistoryPush {α : Type} (chan : List α) (m : α) : List α :=
  lpush chan m

/-- `workers.py` line 41: the `{"exit": true}` sentinel is pushed after the
loop; no `ltrim` follows it. -/
def chartSentinelPush {α : Type} (chan : List α) (m : α) : List α :=
  lpush chan m

/-! ## Trade events and the trade recorder -/

/-- The `data` dict of an OPEN trade event pushed by `run_qbot_worker`
(`qbot.py` lines 198-213): the routing ids (`account_id`, `stock_id`,
`order_id`) are opaque to every claim and are omitted. -/
structure TradeOpenData where
  id : ℕ
  order_type : OrderType
  price : ℚ
  amount : ℚ
  pnl : ℚ
deriving DecidableEq, Repr

/-- A message on the shared `QBOT:TRADE` channel: `{type, output_queue,
data}` with `type` OPEN or CLOSED. -/
inductive TradeEventMsg
  | openEv (output_queue : String) (data : TradeOpenData)
  | closedEv (output_queue : String) (id : ℕ) (pnl : ℚ) (equity : ℚ)
deriving DecidableEq, Repr

def TradeEventMsg.isOpenEv : TradeEventMsg → Bool
  | .openEv _ _ => true
  | .closedEv _ _ _ _ => false

/-- A transient trade record as stored by `Database.add_new_trade`: the
OPEN data plus `created_at` / `updated_at` timestamps. -/
structure StoredTrade where
  data : TradeOpenData
  created_at : ℚ
  updated_at : ℚ
deriving DecidableEq, Repr

/-- The valkey keyspace `QBOT:TRADE:<id>`, as (id, record, TTL seconds). -/
abbrev TradeStore := List (ℕ × StoredTrade × ℕ)

/-- The `trade` notification returned by `add_new_trade`: `{type, time,
order_type, info}` where `info` is `f"{order_type} @ {round(price, 2)}"`;
the formatted price is kept as the rounded rational. -/
structure TradeNotif where
  type : String
  time : ℚ
  order_type : OrderType
  infoPrice : ℚ
deriving DecidableEq, Repr

/-- `round(price, 2)`.  (Python rounds floats half-to-even; no claim
exercises a tie, so ordinary rounding is used.) -/
def pyRound2 (q : ℚ) : ℚ := round (q * 100) / 100

/-- `database.py` lines 127-156, `add_new_trade`: store the OPEN data with
`created_at`/`updated_at` stamps under `QBOT:TRADE:<id>` with `ex=60`
(a 60-second TTL), and return the `trade` notification. -/
def add_new_trade (data : TradeOpenData) (store : TradeStore) (now : ℚ) :
    TradeStore × TradeNotif :=
  ((data.id, ⟨data, now, now⟩, 60) :: store.filter (fun e => e.1 ≠ data.id),
   ⟨"trade", now, data.order_type, pyRound2 data.price⟩)

/-- The `trade_history` notification returned by `update_trade`. -/
structure TradeHistNotif where
  time : ℚ
  order_type : OrderType
  amount : ℚ
  price : ℚ
  pnl : ℚ
deriving DecidableEq, Repr

/-- `database.py` lines 158-190, `update_trade` on a CLOSED event: look up
the transient record; absent → `None` (no-op); otherwise delete it, merge
the close `pnl` and `equity` into the cached fields, and return the
`trade_history` notification. -/
def update_trade (store : TradeStore) (id : ℕ) (pnl equity : ℚ) :
    TradeStore × Option TradeHistNotif :=
  match store.find? (fun e => e.1 == id) with
  | none => (store, none)
  | some (_, rec0, _) =>
      (store.filter (fun e => e.1 ≠ id),
       some ⟨rec0.created_at, rec0.data.order_type, equity, rec0.data.price, pnl⟩)

/-- `database.py` line 127: `add_new_trade(self, data, asession,
valkey_session)` — three required parameters after `self`. -/
def addNewTradeParamCount : ℕ := 3

/-- `workers.py` line 17: `db.add_new_trade(data["data"], asession)` —
two arguments supplied. -/
def addNewTradeArgCount : ℕ := 2

/-- `database.py` line 158: `update_trade(self, data, type, asession,
valkey_session)` — four required parameters after `self`. -/
def updateTradeParamCount : ℕ := 4

/-- `workers.py` line 20: `db.update_trade(data["data"], data["type"],
asession)` — three arguments supplied. -/
def updateTradeArgCount : ℕ := 3

/-- Python call semantics: a call whose argument count does not match the
callee's required parameter count raises `TypeError` before the body
runs. -/
def callWithArity {α : Type} (paramCount argCount : ℕ) (body : α) :
    Except String α :=
  if argCount = paramCount then .ok body
  else .error "TypeError: missing required positional argument"

/-- A notification the trade worker may push onto a session's output
queue: a `trade` message or a `trade_history` message. -/
inductive WorkerNotif
  | trade (n : TradeNotif)
  | trade_history (h : TradeHistNotif)
deriving DecidableEq, Repr

/-- One drain of `run_trade_worker` (`workers.py` lines 12-24) on a popped
trade event.  On OPEN the source calls `add_new_trade` and then
`continue`s (so even a successful call would forward nothing); on CLOSED
it calls `update_trade` and pushes a non-`None` result to the event's
output queue.  Both calls supply one argument fewer than the callee
requires, so both raise `TypeError`. -/
def run_trade_worker_step (store : TradeStore) (now : ℚ) (ev : TradeEventMsg) :
    Except String (TradeStore × List (String × WorkerNotif)) :=
  match ev with
  | .openEv _ data => do
      let res ← callWithArity addNewTradeParamCount addNewTradeArgCount
        (add_new_trade data store now)
      pure (res.1, [])
  | .closedEv q id pnl equity => do
      let res ← callWithArity updateTradeParamCount updateTradeArgCount
        (update_trade store id pnl equity)
      match res.2 with
      | none => pure (res.1, [])
      | some h => pure (res.1, [(q, .trade_history h)])

/-! ## Position & risk state machine (`run_qbot_worker`, `qbot.py` 190-264) -/

/-- `qbot.py` lines 192-196: FLAT → LONG on BUY. -/
def openLong (cfg : QLearningConfig) (id : ℕ) (entry : ℚ) : Position :=
  { id := id, direction := 1, entry_price := entry,
    stop_loss := entry * (1 - cfg.stop_loss_pct),
    take_profit := entry * (1 + cfg.take_profit_pct) }

/-- `qbot.py` lines 215-219: FLAT → SHORT on SELL. -/
def openShort (cfg : QLearningConfig) (id : ℕ) (entry : ℚ) : Position :=
  { id := id, direction := -1, entry_price := entry,
    stop_loss := entry * (1 + cfg.stop_loss_pct),
    take_profit := entry * (1 - cfg.take_profit_pct) }

/-- `qbot.py` lines 240-242, `hit_sl`. -/
def hit_sl (p : Position) (close : ℚ) : Bool :=
  decide ((p.direction = 1 ∧ close ≤ p.stop_loss) ∨
          (p.direction = -1 ∧ p.stop_loss ≤ close))

/-- `qbot.py` lines 243-245, `hit_tp`. -/
def hit_tp (p : Position) (close : ℚ) : Bool :=
  decide ((p.direction = 1 ∧ p.take_profit ≤ close) ∨
          (p.direction = -1 ∧ close ≤ p.take_profit))

/-- `qbot.py` lines 246-248, `close_on_signal`: SELL closes a LONG, BUY
closes a SHORT. -/
def close_on_signal (p : Position) (action : OrderType) : Bool :=
  decide ((p.direction = 1 ∧ action = .SELL) ∨
          (p.direction = -1 ∧ action = .BUY))

/-- `qbot.py` line 250: the full close condition `hit_sl or hit_tp or
close_on_signal`. -/
def shouldClose (p : Position) (close : ℚ) (action : OrderType) : Bool :=
  hit_sl p close || hit_tp p close || close_on_signal p action

/-- The result of the action/risk section of one loop iteration. -/
structure ApplyResult where
  position : Option Position
  trades : List TradeEventMsg
  active_equity : ℚ
  closed_position : Option Position
deriving Repr

/-- `qbot.py` lines 187-264: apply the selected action and the risk rules.
Flat: BUY opens a LONG, SELL opens a SHORT (each emitting one OPEN trade
event at the entry price with amount 1 and pnl 0).  With an open position:
close it exactly when `hit_sl or hit_tp or close_on_signal`, adding the
realized P&L `(close - entry) * direction` to `active_equity` and emitting
one CLOSED trade event. -/
def applyAction (cfg : QLearningConfig) (outq : String) (pos : Option Position)
    (action : OrderType) (close : ℚ) (freshId : ℕ) (activeEq : ℚ) :
    ApplyResult :=
  match pos with
  | none =>
      match action with
      | .BUY =>
          let p := openLong cfg freshId close
          ⟨some p, [.openEv outq ⟨p.id, .BUY, close, 1, 0⟩], activeEq, none⟩
      | .SELL =>
          let p := openShort cfg freshId close
          ⟨some p, [.openEv outq ⟨p.id, .SELL, close, 1, 0⟩], activeEq, none⟩
  | some p =>
      if shouldClose p close action then
        let pnl := (close - p.entry_price) * (p.direction : ℚ)
        ⟨none, [.closedEv outq p.id pnl (activeEq + pnl)], activeEq + pnl, some p⟩
      else
        ⟨some p, [], activeEq, none⟩

/-! ## Decision engine main loop (`run_qbot_worker`) -/

/-- The per-invocation parameters of `run_qbot_worker` that the loop body
reads. -/
structure WorkerParams where
  initial_equity : ℚ
  min_equity : ℚ
  max_equity : ℚ
  output_queue : String

/-- The worker's mutable state: `BotState` (`qbot.py` lines 32-38; the
`threading.Lock` guards fields only this worker touches and carries no
data), the local `active_equity`, the agent, and the uuid supply. -/
structure WorkerState where
  last_close : Option ℚ
  position : Option Position
  equity : ℚ
  stepCount : ℕ
  active_equity : ℚ
  agent : Agent
  nextId : ℕ

/-- `qbot.py` lines 124-126: `active_equity = initial_equity`,
`BotState(equity=initial_equity)`, a fresh agent. -/
def initWorkerState (cfg : QLearningConfig) (initial_equity : ℚ) : WorkerState :=
  ⟨none, none, initial_equity, 0, initial_equity, ⟨cfg, []⟩, 0⟩

/-- A message pushed to the session's output channel by the worker. -/
inductive OutMsg
  | stop
  | chart (candle : Jval)
deriving Repr

/-- What one execution of the loop body does to the control flow. -/
inductive StepOutcome
  | continued (ws : WorkerState)
  | terminated
  | crashed (err : String)

/-- One loop body execution: the control-flow outcome, the messages pushed
to the output channel, and the events pushed to the trade channel, in push
order. -/
structure StepResult where
  outcome : StepOutcome
  output : List OutMsg
  trades : List TradeEventMsg

def posSign : Option Position → ℤ
  | none => 0
  | some p => p.direction

/-- `qbot.py` lines 282-297, the tail of the candle branch: compute the
reward, discretise the next state from the (still old) `last_close` and
the possibly changed position sign, run the Bellman update, advance
`last_close` and the step counter, and forward the original candle. -/
def stepTail (ws : WorkerState) (v : Jval) (lc close prev_equity equity2 active2 : ℚ)
    (current_state : QState) (agent1 : Agent) (action : OrderType)
    (ar : ApplyResult) : StepResult :=
  let reward := compute_reward prev_equity equity2 ar.closed_position
  let next_state := discretiseState agent1.config lc close (posSign ar.position)
  let agent2 := agent1.update current_state action reward (some next_state)
  ⟨.continued
      { last_close := some close, position := ar.position, equity := equity2,
        stepCount := ws.stepCount + 1, active_equity := active2,
        agent := agent2,
        nextId := if ws.position.isNone then ws.nextId + 1 else ws.nextId },
    [.chart v], ar.trades⟩

/-- `qbot.py` lines 162-297: the body under `state.lock` for a parsed
candle with close price `close`.  Recompute equity against an open
position; on the first candle just record `last_close` and forward the
candle; otherwise discretise, select an action, apply the position/risk
machine, then either (flat) check the equity bounds — a breach pushes a
`stop` message and returns — or (open position) fold the unrealized P&L
into both equities, and finish with reward, Bellman update and candle
forwarding. -/
def stepCandle (par : WorkerParams) (ws : WorkerState) (v : Jval) (close : ℚ)
    (r : ℚ) (c : Fin 2) : StepResult :=
  let prev_equity := ws.equity
  let equity1 :=
    match ws.position with
    | some p => par.initial_equity + (close - p.entry_price) * (p.direction : ℚ)
    | none => ws.equity
  match ws.last_close with
  | none =>
      ⟨.continued { ws with last_close := some close, equity := equity1 },
        [.chart v], []⟩
  | some lc =>
      let current_state := discretiseState ws.agent.config lc close (posSign ws.position)
      let sel := ws.agent.selectAction current_state r c
      let ar := applyAction ws.agent.config par.output_queue ws.position sel.2
        close ws.nextId ws.active_equity
      match ar.position with
      | some p' =>
          let pnl := (close - p'.entry_price) * (p'.direction : ℚ)
          stepTail ws v lc close prev_equity (par.initial_equity + pnl)
            (ar.active_equity + pnl) current_state sel.1 sel.2 ar
      | none =>
          if ar.active_equity ≤ par.min_equity ∨ par.max_equity ≤ ar.active_equity then
            ⟨.terminated, [.stop], ar.trades⟩
          else
            stepTail ws v lc close prev_equity equity1 ar.active_equity
              current_state sel.1 sel.2 ar

/-- `qbot.py` lines 140-297, one iteration of the `while` loop after the
`brpop`: a `brpop` timeout (`payload = none`) just loops; otherwise the
control key is checked first — if absent, push `{"type": "stop"}` and
return; then parse (a `JSONDecodeError` skips the payload), honour the
exit sentinel (return without emitting anything), extract
`float(candle.get("close", 0.0))` (a non-dict payload raises
`AttributeError` at `candle.get`, killing the worker), and run the candle
body. -/
def qbotStep (par : WorkerParams) (ws : WorkerState) (ctrlPresent : Bool)
    (payload : Option Payload) (r : ℚ) (c : Fin 2) : StepResult :=
  match payload with
  | none => ⟨.continued ws, [], []⟩
  | some pl =>
    if ctrlPresent then
      match pl with
      | .notJson _ => ⟨.continued ws, [], []⟩
      | .json v =>
        match v with
        | .obj fields =>
            if isExitPayload fields then ⟨.terminated, [], []⟩
            else
              match pyFloat ((jlookup fields "close").getD (.num 0)) with
              | .error e => ⟨.crashed e, [], []⟩
              | .ok close => stepCandle par ws (.obj fields) close r c
        | _ => ⟨.crashed "AttributeError", [], []⟩
    else ⟨.terminated, [.stop], []⟩

/-- One scheduled iteration's environment: the `stop_event` flag read by
the `while` condition, the control-key existence check, the `brpop`
result, and the iteration's randomness. -/
structure IterInput where
  stopEventSet : Bool
  ctrlPresent : Bool
  payload : Option Payload
  r : ℚ
  c : Fin 2

/-- How a finite run of the worker loop ended. -/
inductive RunOutcome
  | running (ws : WorkerState)
  | stopped
  | returned
  | crashed (err : String)

/-- A finite run's outcome plus everything pushed to the output and trade
channels. -/
structure RunResult where
  outcome : RunOutcome
  output : List OutMsg
  trades : List TradeEventMsg

/-- The `while not stop_event.is_set()` loop of `run_qbot_worker`, driven
by a finite schedule of iteration environments.  A set `stop_event` makes
the `while` condition false: the function returns without pushing
anything. -/
def runWorker (par : WorkerParams) : WorkerState → List IterInput → RunResult
  | ws, [] => ⟨.running ws, [], []⟩
  | ws, it :: rest =>
      if it.stopEventSet then ⟨.stopped, [], []⟩
      else
        match qbotStep par ws it.ctrlPresent it.payload it.r it.c with
        | ⟨.continued ws', out, tr⟩ =>
            let rr := runWorker par ws' rest
            ⟨rr.outcome, out ++ rr.output, tr ++ rr.trades⟩
        | ⟨.terminated, out, tr⟩ => ⟨.returned, out, tr⟩
        | ⟨.crashed e, out, tr⟩ => ⟨.crashed e, out, tr⟩

/-! ## Reachable Q-tables

`QLearningAgent.__init__` starts from `{}`, and the only writes to
`self.q_table` anywhere in the source are `_ensure_state` and `update`. -/

/-- The Q-tables an agent instance can actually hold. -/
inductive ReachableQ : QTable → Prop
  | init : ReachableQ []
  | ensure (q : QTable) (s : QState) : ReachableQ q → ReachableQ (QTable.ensure q s)
  | bellman (q : QTable) (cfg : QLearningConfig) (s : QState) (a : OrderType)
      (reward : ℚ) (next : Option QState) :
      ReachableQ q → ReachableQ (Agent.update ⟨cfg, q⟩ s a reward next).q_table

/-! ## Concrete instances used by the claims -/

/-- `QLearningConfig()` with every documented default. -/
def defaultConfig : QLearningConfig := {}

/-- The default configuration with exploration switched off. -/
def greedyConfig : QLearningConfig := { epsilon := 0 }

/-- The session of §8's circuit-breaker scenario: `initial_equity = 500`,
`min_equity = 200`, `max_equity = 800`. -/
def scenParams : WorkerParams := ⟨500, 200, 800, "QBOT:OUTPUT:s"⟩

/-- A candle payload carrying only its close price (the worker reads no
other field once the sentinel check has passed). -/
def candleOf (q : ℚ) : Jval := .obj [("close", .num q)]

/-- A routine loop iteration: live control key, no interrupt, one candle. -/
def scenIter (q : ℚ) : IterInput := ⟨false, true, some (.json (candleOf q)), 1/2, 0⟩

/-- A freshly initialized action row. -/
def row0 : ActionValues := [(.BUY, 0), (.SELL, 0)]

/-- The worker state after feeding closes 500, 500 to a fresh greedy
worker of `scenParams`: one LONG open at 500 (stop-loss 495, take-profit
510), both equities 500, two states tabulated. -/
def scenMidState : WorkerState :=
  ⟨some 500, some ⟨0, 1, 500, 495, 510⟩, 500, 1, 500,
   ⟨greedyConfig, [((0, 0), row0), ((0, 1), row0)]⟩, 1⟩

/-- A worker state holding a LONG at entry 100 (stop-loss 99, take-profit
102) with realized equity still 500, used for the max-equity breach. -/
def maxBreachState : WorkerState :=
  ⟨some 100, some ⟨0, 1, 100, 99, 102⟩, 500, 1, 500,
   ⟨defaultConfig, [((0, 0), row0), ((0, 1), row0)]⟩, 1⟩

/-! ## Helper lemmas -/

theorem findRow_append_fresh (q : QTable) (s : QState) (row : ActionValues)
    (h : QTable.findRow q s = none) :
    QTable.findRow (q ++ [(s, row)]) s = some row := by
  induction q with
  | nil => simp [QTable.findRow]
  | cons hd tl ih =>
      simp only [QTable.findRow, List.find?] at h ⊢
      cases hbeq : (hd.1 == s) with
      | true => simp [hbeq] at h
      | false =>
          simp only [hbeq] at h ⊢
          exact ih h

theorem findRow_ensure_self (q : QTable) (s : QState) :
    ∃ row, QTable.findRow (QTable.ensure q s) s = some row
      ∧ (QTable.findRow q s = some row
         ∨ row = OrderType.enumList.map (fun a => (a, (0 : ℚ)))) := by
  unfold QTable.ensure
  cases h : QTable.findRow q s with
  | some row => exact ⟨row, by simp [h], Or.inl rfl⟩
  | none =>
      refine ⟨OrderType.enumList.map (fun a => (a, (0 : ℚ))), ?_, Or.inr rfl⟩
      simp [h, findRow_append_fresh q s _ h]

theorem setAction_keys (l : ActionValues) (a : OrderType) (v : ℚ) :
    (setAction l a v).map Prod.fst = l.map Prod.fst := by
  induction l with
  | nil => rfl
  | cons hd tl ih =>
      simp only [setAction, List.map_cons] at ih ⊢
      split <;> simp_all

theorem findRow_setVal_keys (q : QTable) (s : QState) (a : OrderType) (v : ℚ)
    (s' : QState) (row' : ActionValues)
    (h : QTable.findRow (QTable.setVal q s a v) s' = some row') :
    ∃ row, QTable.findRow q s' = some row
      ∧ row'.map Prod.fst = row.map Prod.fst := by
  unfold QTable.setVal QTable.findRow at h
  rw [List.find?_map] at h
  have hpred : ((fun row : QState × ActionValues => row.1 == s') ∘
      fun row : QState × ActionValues =>
        if row.1 == s then (row.1, setAction row.2 a v) else row)
      = fun row : QState × ActionValues => row.1 == s' := by
    funext row
    by_cases hk : row.1 == s <;> simp [hk, Function.comp]
  rw [hpred] at h
  cases hfind : q.find? (fun row => row.1 == s') with
  | none => rw [hfind] at h; simp at h
  | some row0 =>
      rw [hfind] at h
      simp at h
      refine ⟨row0.2, by simp [QTable.findRow, hfind], ?_⟩
      rw [← h]
      split
      · exact setAction_keys _ _ _
      · rfl

theorem findRow_ensure_keys (q : QTable) (s : QState) (s' : QState)
    (row' : ActionValues)
    (h : QTable.findRow (QTable.ensure q s) s' = some row') :
    QTable.findRow q s' = some row'
    ∨ row' = OrderType.enumList.map (fun a => (a, (0 : ℚ))) := by
  unfold QTable.ensure at h
  by_cases hp : (QTable.findRow q s).isSome
  · simp only [hp, if_true] at h
    exact Or.inl h
  · simp only [hp, if_false] at h
    induction q with
    | nil =>
        simp only [List.nil_append, QTable.findRow, List.find?] at h
        cases hbeq : ((s, OrderType.enumList.map fun a => (a, (0:ℚ))).1 == s') with
        | true => simp [hbeq] at h; exact Or.inr h.symm
        | false => simp [hbeq] at h
    | cons hd tl ih =>
        simp only [List.cons_append, QTable.findRow, List.find?] at h ⊢
        cases hbeq : (hd.1 == s') with
        | true => simp only [hbeq, Option.map_some] at h ⊢; exact Or.inl h
        | false =>
            simp only [hbeq] at h ⊢
            refine ih ?_ h
            simp only [QTable.findRow] at hp ⊢
            simp only [List.find?] at hp
            cases hbeq2 : (hd.1 == s) with
            | true => simp [hbeq2] at hp
            | false => simp only [hbeq2] at hp; exact hp

/-- Every row of a reachable Q-table has exactly the keys
`[BUY, SELL]`, in enum definition order. -/
theorem reachable_row_keys (q : QTable) (hq : ReachableQ q) (s : QState)
    (row : ActionValues) (h : QTable.findRow q s = some row) :
    row.map Prod.fst = OrderType.enumList := by
  induction hq generalizing s row with
  | init => simp [QTable.findRow] at h
  | ensure q0 s0 _ ih =>
      rcases findRow_ensure_keys q0 s0 s row h with h' | h'
      · exact ih s row h'
      · subst h'; simp [OrderType.enumList]
  | bellman q0 cfg s0 a reward next _ ih =>
      cases next with
      | none =>
          simp only [Agent.update, Agent.ensureState] at h
          rcases findRow_setVal_keys _ _ _ _ _ _ h with ⟨mid, hmid, hkeys⟩
          rcases findRow_ensure_keys q0 s0 s mid hmid with h' | h'
          · rw [hkeys]; exact ih s mid h'
          · rw [hkeys, h']; simp [OrderType.enumList]
      | some s1 =>
          simp only [Agent.update, Agent.ensureState] at h
          rcases findRow_setVal_keys _ _ _ _ _ _ h with ⟨mid, hmid, hkeys⟩
          rcases findRow_ensure_keys _ s1 s mid hmid with h' | h'
          · rcases findRow_ensure_keys q0 s0 s mid h' with h'' | h''
            · rw [hkeys]; exact ih s mid h''
            · rw [hkeys, h'']; simp [OrderType.enumList]
          · rw [hkeys, h']; simp [OrderType.enumList]

theorem row_shape (row : ActionValues)
    (h : row.map Prod.fst = OrderType.enumList) :
    ∃ v1 v2, row = [(OrderType.BUY, v1), (OrderType.SELL, v2)] := by
  match row with
  | [] => simp [OrderType.enumList] at h
  | [p] => simp [OrderType.enumList] at h
  | p :: q :: r :: rest => simp [OrderType.enumList] at h
  | [(a, v1), (b, v2)] =>
      simp only [List.map_cons, List.map_nil, OrderType.enumList] at h
      obtain ⟨ha, hb⟩ : a = OrderType.BUY ∧ b = OrderType.SELL := by
        constructor <;> simp_all
      exact ⟨v1, v2, by rw [ha, hb]⟩

theorem pyMaxByValue_pair (v1 v2 : ℚ) :
    pyMaxByValue [(OrderType.BUY, v1), (OrderType.SELL, v2)]
      = some (if v1 < v2 then OrderType.SELL else OrderType.BUY) := by
  simp only [pyMaxByValue, List.foldl_cons, List.foldl_nil]
  split <;> simp_all

/-! ## Claim C1 -/

/-- Claim C1, counterexample: `OrderType` has exactly the two members
`BUY` and `SELL` — there is no `HOLD` action.  The first time a state is
seen, `_ensure_state` initializes exactly two actions to 0, and the
exploration pick `choice(list(OrderType))` ranges over exactly `BUY` and
`SELL`, so selection is never "uniform among three actions". -/
theorem c1_counterexample :
    OrderType.enumList.length = 2
    ∧ QTable.ensure [] (0, 0) = [((0, 0), [(OrderType.BUY, 0), (OrderType.SELL, 0)])]
    ∧ chooseAction 0 = OrderType.BUY ∧ chooseAction 1 = OrderType.SELL
    ∧ (∀ a : OrderType, a = OrderType.BUY ∨ a = OrderType.SELL) :=
  ⟨rfl, rfl, rfl, rfl, fun a => by cases a <;> simp⟩

/-- Claim C1 as amended: with probability ε (`random() < epsilon`) the
agent chooses uniformly among the TWO actions `BUY` and `SELL`; otherwise
it returns the action with the maximum tabulated value; the first time a
state is seen BOTH actions are initialized to 0.  With ε = 1 every draw
`0 ≤ r < 1` explores, so the selected action is `chooseAction c` — a
function of the random pick alone, independent of the Q-table contents. -/
theorem c1_amended (cfg : QLearningConfig) (q q' : QTable) (s : QState)
    (r r2 : ℚ) (c : Fin 2) (hr0 : 0 ≤ r) (hr1 : r < 1)
    (hr2 : cfg.epsilon ≤ r2) :
    (Agent.selectAction ⟨{ cfg with epsilon := 1 }, q⟩ s r c).2 = chooseAction c
    ∧ (Agent.selectAction ⟨{ cfg with epsilon := 1 }, q⟩ s r c).2
        = (Agent.selectAction ⟨{ cfg with epsilon := 1 }, q'⟩ s r c).2
    ∧ (QTable.findRow q s = none →
        QTable.findRow (QTable.ensure q s) s
          = some [(OrderType.BUY, 0), (OrderType.SELL, 0)])
    ∧ (Agent.selectAction ⟨cfg, q⟩ s r2 c).2
        = (pyMaxByValue ((QTable.findRow (QTable.ensure q s) s).getD [])).getD
            OrderType.BUY := by
  refine ⟨?_, ?_, ?_, ?_⟩
  · simp [Agent.selectAction, Agent.ensureState, if_pos hr1]
  · simp [Agent.selectAction, Agent.ensureState, if_pos hr1]
  · intro hnone
    have := findRow_append_fresh q s
      (OrderType.enumList.map (fun a => (a, (0 : ℚ)))) hnone
    simp [QTable.ensure, hnone, OrderType.enumList] at this ⊢
    simpa [OrderType.enumList] using this
  · have hnlt : ¬ r2 < cfg.epsilon := not_lt.mpr hr2
    simp [Agent.selectAction, Agent.ensureState, if_neg hnlt]

/-- Claim C1 witness: the amended statement at ε-defaults, an empty
Q-table versus a non-trivial one, draw 1/2 and pick 1. -/
theorem c1_amended_witness :
    ((Agent.selectAction ⟨{ defaultConfig with epsilon := 1 }, []⟩ (0, 0) (1/2) 1).2
        = chooseAction 1)
    ∧ ((Agent.selectAction ⟨{ defaultConfig with epsilon := 1 }, []⟩ (0, 0) (1/2) 1).2
        = (Agent.selectAction
            ⟨{ defaultConfig with epsilon := 1 },
             [((0, 0), [(OrderType.BUY, 5), (OrderType.SELL, 3)])]⟩ (0, 0) (1/2) 1).2)
    ∧ (QTable.findRow [] (0, 0) = none →
        QTable.findRow (QTable.ensure [] (0, 0)) (0, 0)
          = some [(OrderType.BUY, 0), (OrderType.SELL, 0)])
    ∧ ((Agent.selectAction ⟨defaultConfig, []⟩ (0, 0) (1/2) 1).2
        = (pyMaxByValue ((QTable.findRow (QTable.ensure [] (0, 0)) (0, 0)).getD [])).getD
            OrderType.BUY) :=
  c1_amended defaultConfig [] [((0, 0), [(OrderType.BUY, 5), (OrderType.SELL, 3)])]
    (0, 0) (1/2) (1/2) 1 (by norm_num) (by norm_num)
    (by norm_num [defaultConfig])

/-! ## Claim C4 -/

/-- Claim C4, failing input: draining the OPEN trade event
`{"type": "OPEN", "output_queue": "QBOT:OUTPUT:s1", "data": {...}}`
crashes the trade worker — `workers.py` line 17 calls
`db.add_new_trade(data["data"], asession)` against the three-parameter
signature of `database.py` line 127, a `TypeError` — so no transient
record is stored and nothing reaches the output channel.  The callee
itself does exactly what the claim describes: it would store the record
under the trade id with a 60-second TTL and return the `trade`
notification with the formatted price. -/
theorem c4_trade_worker_open_crash :
    run_trade_worker_step [] 0
        (TradeEventMsg.openEv "QBOT:OUTPUT:s1" ⟨1, OrderType.BUY, 100, 1, 0⟩)
      = Except.error "TypeError: missing required positional argument"
    ∧ add_new_trade ⟨1, OrderType.BUY, 100, 1, 0⟩ [] 0
      = ([(1, ⟨⟨1, OrderType.BUY, 100, 1, 0⟩, 0, 0⟩, 60)],
         ⟨"trade", 0, OrderType.BUY, 100⟩) := by
  refine ⟨rfl, ?_⟩
  simp only [add_new_trade, pyRound2]
  norm_num

/-! ## Claim C5 -/

/-- Claim C5, counterexample: three pushes in the repository are not
followed by any trim — the trade worker's notification push
(`workers.py` 23-24), the trade-history producer's pushes (`workers.py`
63-64), and the chart producer's exit-sentinel push (`workers.py` 41).
After any of them a channel that already held 100 entries holds 101. -/
theorem c5_counterexample :
    (tradeWorkerPush (List.replicate 100 (0 : ℕ)) 1).length = 101
    ∧ (tradeHistoryPush (List.replicate 100 (0 : ℕ)) 1).length = 101
    ∧ (chartSentinelPush (List.replicate 100 (0 : ℕ)) 1).length = 101 := by
  refine ⟨?_, ?_, ?_⟩ <;>
    simp [tradeWorkerPush, tradeHistoryPush, chartSentinelPush, lpush]

theorem foldl_pushTrim {α : Type} (msgs : List α) (chan : List α)
    (h : chan.length ≤ 100) :
    msgs.foldl pushTrim chan = (msgs.reverse ++ chan).take 100 := by
  induction msgs generalizing chan with
  | nil => simp [List.take_of_length_le h]
  | cons m ms ih =>
      rw [List.foldl_cons,
        ih (pushTrim chan m) (by simp [pushTrim, ltrim100, lpush])]
      simp only [pushTrim, ltrim100, lpush, List.reverse_cons, List.append_assoc,
        List.singleton_append]
      rw [List.take_append_eq_append_take, List.take_append_eq_append_take,
        List.take_take]
      congr 1
      exact congrArg (fun n => List.take n (m :: chan))
        (Nat.min_eq_left (Nat.sub_le _ _))

/-- Claim C5 as amended: every push in the Decision Engine worker (and the
chart producer's candle pushes) follows the `pushTrim` discipline — the
channel keeps exactly the 100 most recent entries, oldest dropped first,
so 150 pushes leave exactly the last 100; but the trade worker's
notification pushes, the trade-history producer's pushes and the chart
producer's exit-sentinel push are bare `lpush`es with no trim. -/
theorem c5_amended (msgs : List ℕ) (h : msgs.length = 150) :
    msgs.foldl pushTrim [] = msgs.reverse.take 100
    ∧ (msgs.foldl pushTrim []).length = 100
    ∧ (∀ chan : List ℕ, ∀ m : ℕ, tradeWorkerPush chan m = lpush chan m
        ∧ tradeHistoryPush chan m = lpush chan m
        ∧ chartSentinelPush chan m = lpush chan m) := by
  have hfold := foldl_pushTrim msgs [] (by simp)
  refine ⟨by simpa using hfold, ?_, fun chan m => ⟨rfl, rfl, rfl⟩⟩
  rw [hfold]
  simp [List.length_take, h]

/-- Claim C5 witness: 150 concrete messages through the worker's
push-then-trim discipline leave exactly the 100 most recent. -/
theorem c5_amended_witness :
    (List.range 150).foldl pushTrim [] = (List.range 150).reverse.take 100
    ∧ ((List.range 150).foldl pushTrim []).length = 100 :=
  ⟨(c5_amended (List.range 150) (by simp)).1,
   (c5_amended (List.range 150) (by simp)).2.1⟩

/-! ## Claim C6 -/

/-- Claim C6: a LONG opened at entry E has stop-loss E·(1−slPct) and
take-profit E·(1+tpPct) and closes exactly when the close price is at or
below the stop-loss, at or above the take-profit, or the opposing SELL
fires; a SHORT mirrors this with inverted bounds and comparisons; with
the default 1% stop-loss and 2% take-profit, a LONG at 100 closes exactly
when the price is ≤ 99 or ≥ 102. -/
theorem c6_risk_rules (cfg : QLearningConfig) (id : ℕ) (E price : ℚ)
    (action : OrderType) :
    (openLong cfg id E).stop_loss = E * (1 - cfg.stop_loss_pct)
    ∧ (openLong cfg id E).take_profit = E * (1 + cfg.take_profit_pct)
    ∧ (shouldClose (openLong cfg id E) price action = true ↔
        (price ≤ E * (1 - cfg.stop_loss_pct) ∨ E * (1 + cfg.take_profit_pct) ≤ price
          ∨ action = OrderType.SELL))
    ∧ (openShort cfg id E).stop_loss = E * (1 + cfg.stop_loss_pct)
    ∧ (openShort cfg id E).take_profit = E * (1 - cfg.take_profit_pct)
    ∧ (shouldClose (openShort cfg id E) price action = true ↔
        (E * (1 + cfg.stop_loss_pct) ≤ price ∨ price ≤ E * (1 - cfg.take_profit_pct)
          ∨ action = OrderType.BUY))
    ∧ (shouldClose (openLong defaultConfig 0 100) price OrderType.BUY = true ↔
        (price ≤ 99 ∨ 102 ≤ price)) := by
  refine ⟨rfl, rfl, ?_, rfl, rfl, ?_, ?_⟩
  · simp [shouldClose, hit_sl, hit_tp, close_on_signal, openLong]
    tauto
  · simp [shouldClose, hit_sl, hit_tp, close_on_signal, openShort]
    tauto
  · simp [shouldClose, hit_sl, hit_tp, close_on_signal, openLong, defaultConfig]
    norm_num

/-! ## Claim C9 -/

/-- Claim C9, counterexample: the payload `"[]"` is valid JSON but not a
candle object.  `json.loads` succeeds, so the `except JSONDecodeError`
guard does not fire, and `candle.get("exit")` raises `AttributeError`
(a list has no `.get`), killing the worker — a malformed candle payload
that IS fatal. -/
theorem c9_counterexample :
    qbotStep scenParams (initWorkerState defaultConfig 500) true
        (some (.json (.arr []))) (1/2) 0
      = ⟨.crashed "AttributeError", [], []⟩ := rfl

/-- Claim C9 as amended: only payloads that fail `json.loads`
(`JSONDecodeError`) are skipped with the loop continuing and the state
untouched; a payload that decodes to a non-dict JSON value (a list, a
number, ...) raises an uncaught `AttributeError` at `candle.get` and is
fatal to the worker. -/
theorem c9_amended (par : WorkerParams) (ws : WorkerState) (s : String)
    (r : ℚ) (c : Fin 2) :
    qbotStep par ws true (some (.notJson s)) r c = ⟨.continued ws, [], []⟩
    ∧ qbotStep par ws true (some (.json (.arr []))) r c
        = ⟨.crashed "AttributeError", [], []⟩
    ∧ qbotStep par ws true (some (.json (.num 5))) r c
        = ⟨.crashed "AttributeError", [], []⟩ :=
  ⟨rfl, rfl, rfl⟩

/-! ## Claim C2 -/

/-- Claim C2, counterexample: two termination causes emit no final `stop`
message.  Popping the exit sentinel (`candle.get("exit") is not None`)
returns immediately with no output at all, and a process-level interrupt
(the `stop_event` set by the SIGINT/SIGTERM handler) makes the `while`
condition false so the worker returns without pushing anything. -/
theorem c2_counterexample :
    qbotStep scenParams (initWorkerState defaultConfig 500) true
        (some (.json (.obj [("exit", .bool true)]))) (1/2) 0
      = ⟨.terminated, [], []⟩
    ∧ runWorker scenParams (initWorkerState defaultConfig 500)
        [⟨true, true, none, 1/2, 0⟩]
      = ⟨.stopped, [], []⟩ :=
  ⟨rfl, rfl⟩

/-- Claim C2 as amended: the worker emits a final `stop` message exactly
when it terminates because the control key is missing or because the
equity bounds are breached; the exit sentinel and a process-level
interrupt terminate silently (and malformed payloads never terminate the
worker at all — there is no repeated-failure rule). -/
theorem c2_amended (par : WorkerParams) (ws : WorkerState) (pl : Payload)
    (fields : List (String × Jval)) (it : IterInput) (rest : List IterInput)
    (r : ℚ) (c : Fin 2)
    (hexit : isExitPayload fields = true) (hstop : it.stopEventSet = true) :
    qbotStep par ws false (some pl) r c = ⟨.terminated, [.stop], []⟩
    ∧ qbotStep par ws true (some (.json (.obj fields))) r c = ⟨.terminated, [], []⟩
    ∧ runWorker par ws (it :: rest) = ⟨.stopped, [], []⟩
    ∧ qbotStep scenParams maxBreachState true (some (.json (candleOf 450))) (1/2) 0
        = ⟨.terminated, [.stop], [.closedEv "QBOT:OUTPUT:s" 0 350 850]⟩ := by
  refine ⟨rfl, ?_, ?_, ?_⟩
  · simp [qbotStep, hexit]
  · simp [runWorker, hstop]
  · with_unfolding_all rfl

/-- Claim C2 witness: the amended statement at a fresh worker, a non-JSON
payload, the concrete exit-sentinel object, and an interrupted first
iteration. -/
theorem c2_amended_witness :
    qbotStep scenParams (initWorkerState defaultConfig 500) false
        (some (.notJson "not json")) (1/2) 0
      = ⟨.terminated, [.stop], []⟩
    ∧ qbotStep scenParams (initWorkerState defaultConfig 500) true
        (some (.json (.obj [("exit", .bool true)]))) (1/2) 0
      = ⟨.terminated, [], []⟩
    ∧ runWorker scenParams (initWorkerState defaultConfig 500)
        [⟨true, true, none, 1/2, 0⟩]
      = ⟨.stopped, [], []⟩
    ∧ qbotStep scenParams maxBreachState true (some (.json (candleOf 450))) (1/2) 0
        = ⟨.terminated, [.stop], [.closedEv "QBOT:OUTPUT:s" 0 350 850]⟩ :=
  c2_amended scenParams (initWorkerState defaultConfig 500) (.notJson "not json")
    [("exit", .bool true)] ⟨true, true, none, 1/2, 0⟩ [] (1/2) 0 rfl rfl

/-! ## Claim C3 -/

theorem stepCandle_breach (par : WorkerParams) (ws : WorkerState) (v : Jval)
    (close lc : ℚ) (r : ℚ) (c : Fin 2) (ar : ApplyResult)
    (hlc : ws.last_close = some lc)
    (har : applyAction ws.agent.config par.output_queue ws.position
        ((ws.agent.selectAction
            (discretiseState ws.agent.config lc close (posSign ws.position)) r c).2)
        close ws.nextId ws.active_equity = ar)
    (hflat : ar.position = none)
    (hbreach : ar.active_equity ≤ par.min_equity
        ∨ par.max_equity ≤ ar.active_equity) :
    stepCandle par ws v close r c = ⟨.terminated, [.stop], ar.trades⟩ := by
  simp only [stepCandle, hlc, har, hflat]
  rw [if_pos hbreach]

/-- Claim C3: whenever the position state machine leaves the session flat
for this candle and the resulting `active_equity` is at or below
`min_equity` or at or above `max_equity`, the loop iteration pushes
exactly the `stop` control message (no candle is forwarded) and
terminates; any trade event emitted by the close that caused the breach
has already been pushed to the trade channel. -/
theorem c3_equity_breach (par : WorkerParams) (ws : WorkerState)
    (fields : List (String × Jval)) (close lc : ℚ) (r : ℚ) (c : Fin 2)
    (ar : ApplyResult)
    (hexit : isExitPayload fields = false)
    (hclose : (jlookup fields "close").getD (Jval.num 0) = Jval.num close)
    (hlc : ws.last_close = some lc)
    (har : applyAction ws.agent.config par.output_queue ws.position
        ((ws.agent.selectAction
            (discretiseState ws.agent.config lc close (posSign ws.position)) r c).2)
        close ws.nextId ws.active_equity = ar)
    (hflat : ar.position = none)
    (hbreach : ar.active_equity ≤ par.min_equity
        ∨ par.max_equity ≤ ar.active_equity) :
    qbotStep par ws true (some (.json (.obj fields))) r c
      = ⟨.terminated, [.stop], ar.trades⟩ := by
  have hstep := stepCandle_breach par ws (.obj fields) close lc r c ar
    hlc har hflat hbreach
  simp [qbotStep, hexit, hclose, pyFloat, hstep]

/-- Claim C3 witness: the §8 scenario.  With `min_equity = 200`,
`max_equity = 800`, `initial_equity = 500` and closes 500, 500, 150, the
greedy worker opens a LONG at 500 on the second candle; the third candle
at 150 hits the stop-loss, realizes P&L −350 (flat equity 150 ≤ 200), and
the session ends with exactly a `stop` message — the 150-candle is never
forwarded. -/
theorem c3_witness :
    runWorker scenParams (initWorkerState greedyConfig 500)
        [scenIter 500, scenIter 500, scenIter 150]
      = ⟨.returned,
         [.chart (candleOf 500), .chart (candleOf 500), .stop],
         [.openEv "QBOT:OUTPUT:s" ⟨0, .BUY, 500, 1, 0⟩,
          .closedEv "QBOT:OUTPUT:s" 0 (-350) 150]⟩
    ∧ qbotStep scenParams scenMidState true (some (.json (candleOf 150))) (1/2) 0
        = ⟨.terminated, [.stop], [.closedEv "QBOT:OUTPUT:s" 0 (-350) 150]⟩ :=
  ⟨by with_unfolding_all rfl,
   c3_equity_breach scenParams scenMidState [("close", Jval.num 150)] 150 500
     (1/2) 0
     ⟨none, [.closedEv "QBOT:OUTPUT:s" 0 (-350) 150], 150, some ⟨0, 1, 500, 495, 510⟩⟩
     rfl rfl rfl (by with_unfolding_all rfl) rfl
     (Or.inl (by norm_num [scenParams]))⟩

/-! ## Claim C7 -/

/-- Claim C7: with ε = 0 the `random() < epsilon` test never fires (a
`random()` draw satisfies 0 ≤ r), so `select_action` is the greedy read of
the (ensured) row for the state — deterministic across draws with no
intervening `update`.  On every table the agent can actually hold
(`ReachableQ`), the row's keys are `[BUY, SELL]` in enum definition order
whatever the update history, the selected action is `SELL` iff its value
strictly exceeds `BUY`'s, and a tie yields `BUY` (Python's `max` keeps
the first maximal key). -/
theorem c7_greedy_deterministic (cfg : QLearningConfig) (q : QTable)
    (s : QState) (r r' : ℚ) (c c' : Fin 2) (hq : ReachableQ q)
    (heps : cfg.epsilon = 0) (hr : 0 ≤ r) (hr' : 0 ≤ r') :
    ∃ v1 v2,
      QTable.findRow (QTable.ensure q s) s
        = some [(OrderType.BUY, v1), (OrderType.SELL, v2)]
      ∧ (Agent.selectAction ⟨cfg, q⟩ s r c).2
          = (if v1 < v2 then OrderType.SELL else OrderType.BUY)
      ∧ (Agent.selectAction ⟨cfg, q⟩ s r c).2
          = (Agent.selectAction ⟨cfg, q⟩ s r' c').2
      ∧ (v1 = v2 → (Agent.selectAction ⟨cfg, q⟩ s r c).2 = OrderType.BUY) := by
  obtain ⟨row, hrow, _⟩ := findRow_ensure_self q s
  have hkeys : row.map Prod.fst = OrderType.enumList :=
    reachable_row_keys _ (ReachableQ.ensure q s hq) s row hrow
  obtain ⟨v1, v2, hshape⟩ := row_shape row hkeys
  subst hshape
  have hsel : ∀ r0 : ℚ, 0 ≤ r0 → ∀ c0 : Fin 2,
      (Agent.selectAction ⟨cfg, q⟩ s r0 c0).2
        = (if v1 < v2 then OrderType.SELL else OrderType.BUY) := by
    intro r0 hr0 c0
    have hnlt : ¬ r0 < (Agent.ensureState ⟨cfg, q⟩ s).config.epsilon := by
      simp [Agent.ensureState, heps]
      exact hr0
    simp only [Agent.selectAction, if_neg hnlt]
    simp only [Agent.ensureState]
    rw [hrow]
    simp [pyMaxByValue_pair]
  refine ⟨v1, v2, hrow, hsel r hr c, (hsel r hr c).trans (hsel r' hr' c').symm, ?_⟩
  intro hv
  rw [hsel r hr c, hv, if_neg (lt_irrefl v2)]

/-- Claim C7 witness: greedy selection on the empty reachable table at
state (2, 0), under two different draws and picks. -/
theorem c7_greedy_witness :
    ∃ v1 v2,
      QTable.findRow (QTable.ensure [] (2, 0)) (2, 0)
        = some [(OrderType.BUY, v1), (OrderType.SELL, v2)]
      ∧ (Agent.selectAction ⟨greedyConfig, []⟩ (2, 0) 0 0).2
          = (if v1 < v2 then OrderType.SELL else OrderType.BUY)
      ∧ (Agent.selectAction ⟨greedyConfig, []⟩ (2, 0) 0 0).2
          = (Agent.selectAction ⟨greedyConfig, []⟩ (2, 0) (1/2) 1).2
      ∧ (v1 = v2 → (Agent.selectAction ⟨greedyConfig, []⟩ (2, 0) 0 0).2
          = OrderType.BUY) :=
  c7_greedy_deterministic greedyConfig [] (2, 0) 0 (1/2) 0 1 ReachableQ.init
    rfl (by norm_num) (by norm_num)

/-! ## Claim C8 -/

/-- Claim C8: the worker's position slot is an `Option` — at most one open
position ever exists — and across the action/risk section of any loop
iteration: from flat, BUY creates exactly the LONG at the current close
and SELL the SHORT; from an open position `p`, the slot afterwards is
either still `p` or empty (never a fresh position), and it empties exactly
when the stop-loss, take-profit, or opposing-signal condition fires. -/
theorem c8_position_invariant (cfg : QLearningConfig) (outq : String)
    (pos : Option Position) (action : OrderType) (close : ℚ) (freshId : ℕ)
    (activeEq : ℚ) :
    ((applyAction cfg outq none action close freshId activeEq).position
        = some (openLong cfg freshId close)
      ∨ (applyAction cfg outq none action close freshId activeEq).position
        = some (openShort cfg freshId close))
    ∧ (action = OrderType.BUY →
        (applyAction cfg outq none action close freshId activeEq).position
          = some (openLong cfg freshId close))
    ∧ (action = OrderType.SELL →
        (applyAction cfg outq none action close freshId activeEq).position
          = some (openShort cfg freshId close))
    ∧ (∀ p, pos = some p →
        ((applyAction cfg outq pos action close freshId activeEq).position = none
          ↔ shouldClose p close action = true))
    ∧ (∀ p, pos = some p →
        ((applyAction cfg outq pos action close freshId activeEq).position = some p
          ∨ (applyAction cfg outq pos action close freshId activeEq).position
              = none)) := by
  refine ⟨?_, ?_, ?_, ?_, ?_⟩
  · cases action <;> simp [applyAction]
  · intro h; subst h; simp [applyAction]
  · intro h; subst h; simp [applyAction]
  · intro p hp; subst hp
    simp only [applyAction]
    split <;> simp_all
  · intro p hp; subst hp
    simp only [applyAction]
    split <;> simp

/-- Claim C8 witness: from flat, BUY at close 100 creates exactly the
LONG; from that LONG, the close-iff condition and the
no-fresh-position property at close 99 with action BUY. -/
theorem c8_position_witness :
    (applyAction defaultConfig "QBOT:OUTPUT:s" none OrderType.BUY 100 1 500).position
      = some (openLong defaultConfig 1 100)
    ∧ ((applyAction defaultConfig "QBOT:OUTPUT:s"
          (some (openLong defaultConfig 1 100)) OrderType.BUY 99 2 500).position = none
        ↔ shouldClose (openLong defaultConfig 1 100) 99 OrderType.BUY = true)
    ∧ ((applyAction defaultConfig "QBOT:OUTPUT:s"
          (some (openLong defaultConfig 1 100)) OrderType.BUY 99 2 500).position
            = some (openLong defaultConfig 1 100)
        ∨ (applyAction defaultConfig "QBOT:OUTPUT:s"
          (some (openLong defaultConfig 1 100)) OrderType.BUY 99 2 500).position
            = none) :=
  ⟨(c8_position_invariant defaultConfig "QBOT:OUTPUT:s" none OrderType.BUY 100 1
      500).2.1 rfl,
   (c8_position_invariant defaultConfig "QBOT:OUTPUT:s"
      (some (openLong defaultConfig 1 100)) OrderType.BUY 99 2 500).2.2.2.1
      (openLong defaultConfig 1 100) rfl,
   (c8_position_invariant defaultConfig "QBOT:OUTPUT:s"
      (some (openLong defaultConfig 1 100)) OrderType.BUY 99 2 500).2.2.2.2
      (openLong defaultConfig 1 100) rfl⟩

/-! ## Claim C10 -/

theorem applyAction_trades_length (cfg : QLearningConfig) (outq : String)
    (pos : Option Position) (action : OrderType) (close : ℚ) (freshId : ℕ)
    (activeEq : ℚ) :
    (applyAction cfg outq pos action close freshId activeEq).trades.length ≤ 1 := by
  cases pos with
  | none => cases action <;> simp [applyAction]
  | some p => simp only [applyAction]; split <;> simp

theorem applyAction_some_no_open (cfg : QLearningConfig) (outq : String)
    (p : Position) (action : OrderType) (close : ℚ) (freshId : ℕ)
    (activeEq : ℚ) :
    ∀ t ∈ (applyAction cfg outq (some p) action close freshId activeEq).trades,
      t.isOpenEv = false := by
  simp only [applyAction]
  split <;> simp [TradeEventMsg.isOpenEv]

theorem applyAction_some_position (cfg : QLearningConfig) (outq : String)
    (p : Position) (action : OrderType) (close : ℚ) (freshId : ℕ)
    (activeEq : ℚ) :
    (applyAction cfg outq (some p) action close freshId activeEq).position = some p
    ∨ (applyAction cfg outq (some p) action close freshId activeEq).position
        = none := by
  simp only [applyAction]
  split <;> simp

/-- The candle body either pushes no trade event and keeps the position,
or pushes exactly the trade events of its `applyAction` run and leaves
that run's resulting position. -/
theorem stepCandle_shape (par : WorkerParams) (ws : WorkerState) (v : Jval)
    (close : ℚ) (r : ℚ) (c : Fin 2) :
    ((stepCandle par ws v close r c).trades = []
      ∧ ∀ ws', (stepCandle par ws v close r c).outcome = StepOutcome.continued ws'
          → ws'.position = ws.position)
    ∨ (∃ action close2,
        (stepCandle par ws v close r c).trades
          = (applyAction ws.agent.config par.output_queue ws.position action close2
              ws.nextId ws.active_equity).trades
        ∧ ∀ ws', (stepCandle par ws v close r c).outcome = StepOutcome.continued ws'
            → ws'.position = (applyAction ws.agent.config par.output_queue
                ws.position action close2 ws.nextId ws.active_equity).position) := by
  cases hlc : ws.last_close with
  | none =>
      left
      refine ⟨by simp [stepCandle, hlc], ?_⟩
      intro ws' h
      simp [stepCandle, hlc] at h
      rw [← h]
  | some lc =>
      right
      refine ⟨(ws.agent.selectAction
          (discretiseState ws.agent.config lc close (posSign ws.position)) r c).2,
        close, ?_, ?_⟩
      · simp only [stepCandle, hlc]
        cases hpos : (applyAction ws.agent.config par.output_queue ws.position
            ((ws.agent.selectAction
              (discretiseState ws.agent.config lc close (posSign ws.position)) r c).2)
            close ws.nextId ws.active_equity).position with
        | some p' => simp [hpos, stepTail]
        | none =>
            simp only [hpos]
            split
            · rfl
            · simp [stepTail]
      · simp only [stepCandle, hlc]
        cases hpos : (applyAction ws.agent.config par.output_queue ws.position
            ((ws.agent.selectAction
              (discretiseState ws.agent.config lc close (posSign ws.position)) r c).2)
            close ws.nextId ws.active_equity).position with
        | some p' =>
            simp only [hpos, stepTail]
            intro ws' h
            simp only [StepOutcome.continued.injEq] at h
            rw [← h]
        | none =>
            simp only [hpos]
            split
            · intro ws' h
              simp at h
            · simp only [stepTail]
              intro ws' h
              simp only [StepOutcome.continued.injEq] at h
              rw [← h]
              exact hpos

/-- Any loop iteration either pushes no trade event and leaves the
position slot as it was, or pushes exactly the trade events of one
`applyAction` run and leaves its resulting position. -/
theorem qbotStep_shape (par : WorkerParams) (ws : WorkerState) (ctrl : Bool)
    (payload : Option Payload) (r : ℚ) (c : Fin 2) :
    ((qbotStep par ws ctrl payload r c).trades = []
      ∧ ∀ ws', (qbotStep par ws ctrl payload r c).outcome
          = StepOutcome.continued ws' → ws'.position = ws.position)
    ∨ (∃ action close,
        (qbotStep par ws ctrl payload r c).trades
          = (applyAction ws.agent.config par.output_queue ws.position action close
              ws.nextId ws.active_equity).trades
        ∧ ∀ ws', (qbotStep par ws ctrl payload r c).outcome
            = StepOutcome.continued ws' →
            ws'.position = (applyAction ws.agent.config par.output_queue
              ws.position action close ws.nextId ws.active_equity).position) := by
  cases payload with
  | none =>
      left
      refine ⟨rfl, ?_⟩
      intro ws' h
      simp [qbotStep] at h
      rw [← h]
  | some pl =>
      cases ctrl with
      | false => left; exact ⟨rfl, by intro ws' h; simp [qbotStep] at h⟩
      | true =>
          cases pl with
          | notJson s =>
              left
              refine ⟨rfl, ?_⟩
              intro ws' h
              simp [qbotStep] at h
              rw [← h]
          | json v =>
              cases v with
              | obj fields =>
                  cases hexit : isExitPayload fields with
                  | true =>
                      left
                      exact ⟨by simp [qbotStep, hexit],
                        by intro ws' h; simp [qbotStep, hexit] at h⟩
                  | false =>
                      cases hpf : pyFloat ((jlookup fields "close").getD (.num 0)) with
                      | error e =>
                          left
                          exact ⟨by simp [qbotStep, hexit, hpf],
                            by intro ws' h; simp [qbotStep, hexit, hpf] at h⟩
                      | ok close =>
                          have hq : qbotStep par ws true
                              (some (.json (.obj fields))) r c
                              = stepCandle par ws (.obj fields) close r c := by
                            simp [qbotStep, hexit, hpf]
                          rw [hq]
                          exact stepCandle_shape par ws (.obj fields) close r c
              | arr elems =>
                  left; exact ⟨rfl, by intro ws' h; simp [qbotStep] at h⟩
              | str s =>
                  left; exact ⟨rfl, by intro ws' h; simp [qbotStep] at h⟩
              | num q0 =>
                  left; exact ⟨rfl, by intro ws' h; simp [qbotStep] at h⟩
              | bool b =>
                  left; exact ⟨rfl, by intro ws' h; simp [qbotStep] at h⟩
              | null =>
                  left; exact ⟨rfl, by intro ws' h; simp [qbotStep] at h⟩

/-- Claim C10: within one candle-processing iteration at most one position
transition occurs — at most one trade event is pushed to the trade
channel, and when the iteration starts with an open position it never
opens a new one: no OPEN event is emitted, and the position afterwards is
either the same position or none. -/
theorem c10_single_transition (par : WorkerParams) (ws : WorkerState)
    (ctrl : Bool) (payload : Option Payload) (r : ℚ) (c : Fin 2) :
    (qbotStep par ws ctrl payload r c).trades.length ≤ 1
    ∧ (∀ p, ws.position = some p →
        ∀ t ∈ (qbotStep par ws ctrl payload r c).trades, t.isOpenEv = false)
    ∧ (∀ p ws', ws.position = some p →
        (qbotStep par ws ctrl payload r c).outcome = StepOutcome.continued ws' →
        ws'.position = some p ∨ ws'.position = none) := by
  obtain ⟨htr, hpos⟩ | ⟨action, close, htr, hpos⟩ :=
    qbotStep_shape par ws ctrl payload r c
  · refine ⟨by simp [htr], ?_, ?_⟩
    · intro p hp t ht
      rw [htr] at ht
      simp at ht
    · intro p ws' hp hc
      exact Or.inl ((hpos ws' hc).trans hp)
  · refine ⟨by rw [htr]; exact applyAction_trades_length _ _ _ _ _ _ _, ?_, ?_⟩
    · intro p hp t ht
      rw [htr, hp] at ht
      exact applyAction_some_no_open _ _ _ _ _ _ _ t ht
    · intro p ws' hp hc
      have h := hpos ws' hc
      rw [hp] at h
      rcases applyAction_some_position ws.agent.config par.output_queue p action
        close ws.nextId ws.active_equity with h2 | h2
      · exact Or.inl (h.trans h2)
      · exact Or.inr (h.trans h2)

/-- Claim C10 witness: at the mid-scenario state (one open LONG at 500),
the 150-candle iteration pushes one trade event, no OPEN event, and
leaves the position slot empty. -/
theorem c10_single_transition_witness :
    (qbotStep scenParams scenMidState true (some (.json (candleOf 150))) (1/2) 0).trades.length ≤ 1
    ∧ (∀ t ∈ (qbotStep scenParams scenMidState true
        (some (.json (candleOf 150))) (1/2) 0).trades, t.isOpenEv = false) :=
  ⟨(c10_single_transition scenParams scenMidState true
      (some (.json (candleOf 150))) (1/2) 0).1,
   (c10_single_transition scenParams scenMidState true
      (some (.json (candleOf 150))) (1/2) 0).2.1 ⟨0, 1, 500, 495, 510⟩ rfl⟩

end QBot
